import Mathlib

/-!
Shallow embedding of `src/custom_libs/subliminal_patch/providers/pipocas.py`
(the pipocas.tv subtitle provider) and proofs about it.

Python strings are modelled as Lean `String`, bytes as `List Nat`,
Python `None`-able values as `Option`, and Python sets as `Finset String`.
External library behaviour (HTTP, BeautifulSoup HTML queries, `guessit`,
`guess_matches`, `get_scores`, archive decoding, `fix_line_ending`,
`Subtitle.normalize`) is supplied through oracle parameters ("worlds"),
while every computation written in pipocas.py itself is translated
directly.
-/

namespace Pipocas

/-! ### Generic Python-semantics helpers -/

/-- Python `needle in hay` substring test on lists of characters. -/
def list_isInfix (n h : List Char) : Bool :=
  (List.range (h.length + 1)).any (fun i => n.isPrefixOf (h.drop i))

/-- Python `needle in hay` substring test on strings. -/
def contains_sub (needle hay : String) : Bool :=
  list_isInfix needle.data hay.data

/-- Python `s.lower()` (character-wise lowercasing). -/
def pyLower (s : String) : String :=
  ⟨s.data.map Char.toLower⟩

/-- Python truthiness of an optional string (`None` and `""` are falsy). -/
def optTruthyStr (o : Option String) : Bool :=
  match o with
  | none => false
  | some s => s ≠ ""

/-- Python truthiness of an optional integer (`None` and `0` are falsy). -/
def optTruthyNat (o : Option Nat) : Bool :=
  match o with
  | none => false
  | some n => n ≠ 0

/-- Python `x or default` for optional strings (`None`/`""` fall back). -/
def pyOrStr (o : Option String) (dflt : String) : String :=
  match o with
  | none => dflt
  | some s => if s = "" then dflt else s

/-- Python `f"{n:02d}"` zero-padded two-digit formatting of a natural. -/
def pad2 (n : Nat) : String :=
  if n < 10 then "0" ++ toString n else toString n

/-- `os.path.basename`: the part of a path after the last `/`. -/
def basename (s : String) : String :=
  ⟨(((s.data.reverse).takeWhile (fun c => c ≠ '/')).reverse)⟩

/-- The stem of `os.path.splitext`: drop the extension after the last dot,
except when every character before that dot is itself a dot. -/
def splitextStem (s : String) : String :=
  let b := s.data
  let rest := (b.reverse.takeWhile (fun c => c ≠ '.')).length
  if rest < b.length then
    let stem := b.take (b.length - rest - 1)
    if stem.all (fun c => c = '.') then s else ⟨stem⟩
  else s

/-- Python `round` (banker's rounding: round half to even) on a rational. -/
def roundHalfEven (q : ℚ) : ℤ :=
  let f := ⌊q⌋
  let frac := q - f
  if frac < 1/2 then f
  else if 1/2 < frac then f + 1
  else if f % 2 = 0 then f else f + 1

/-! ### Languages (`PIPOCAS_LANGUAGE_MAP`, `get_pipocas_language`) -/

/-- A `subzero` language: ISO alpha3 code plus optional country. -/
structure Language where
  alpha3 : String
  country : Option String
deriving DecidableEq, Repr

/-- Mapping between language keys and pipocas.tv language names. -/
def PIPOCAS_LANGUAGE_MAP : List ((String × Option String) × String) :=
  [ (("por", none), "portugues"),
    (("por", some "PT"), "portugues"),
    (("por", some "BR"), "brasileiro"),
    (("eng", none), "ingles"),
    (("eng", some "US"), "ingles"),
    (("eng", some "GB"), "ingles"),
    (("spa", none), "espanhol"),
    (("spa", some "ES"), "espanhol"),
    (("spa", some "MX"), "espanhol") ]

/-- `get_pipocas_language`: map a `Language` to the site's language string,
trying `(alpha3, country)` first and `(alpha3, None)` as fallback. -/
def get_pipocas_language (language : Language) : Option String :=
  match PIPOCAS_LANGUAGE_MAP.lookup (language.alpha3, language.country) with
  | some v => some v
  | none => PIPOCAS_LANGUAGE_MAP.lookup (language.alpha3, none)

/-! ### Videos -/

/-- A subliminal video: either an episode or a movie.  Season, episode and
year are optional integers (Python `None`). -/
inductive Video
  | episode (series : String) (season : Option Nat) (episodeNum : Option Nat)
      (year : Option Nat) (name : String)
  | movie (title : String) (year : Option Nat) (name : String)
deriving DecidableEq, Repr

def Video.year : Video → Option Nat
  | .episode _ _ _ y _ => y
  | .movie _ y _ => y

def Video.season : Video → Option Nat
  | .episode _ s _ _ _ => s
  | .movie _ _ _ => none

def Video.episodeNum : Video → Option Nat
  | .episode _ _ e _ _ => e
  | .movie _ _ _ => none

def Video.isEpisode : Video → Bool
  | .episode _ _ _ _ _ => true
  | .movie _ _ _ => false

def Video.name : Video → String
  | .episode _ _ _ _ n => n
  | .movie _ _ n => n

/-! ### Star score (`_parse_details_page`, rating conversion) -/

/-- Hit factor used by `_parse_details_page`: `min(hits / 100.0, 5.0)` when
the rating is non-zero, `0` otherwise.  Exact rational arithmetic: every
quantity here has denominator dividing 200, so the float computation in
the source rounds identically. -/
def hit_factor (rating_val hits : Nat) : ℚ :=
  if rating_val = 0 then 0 else min ((hits : ℚ) / 100) 5

/-- `score_stars = round((rating_val + hit_factor) / 2.0)`. -/
def score_stars (rating_val hits : Nat) : ℤ :=
  roundHalfEven (((rating_val : ℚ) + hit_factor rating_val hits) / 2)

/-! ### Site constants -/

def SITE : String := "https://pipocas.tv"
def LOGIN_URL : String := SITE ++ "/login"
def SEARCH_URL : String := SITE ++ "/legendas"

/-- `DOWNLOAD_URL.format(id=sub_id)`. -/
def download_url (sub_id : String) : String :=
  SITE ++ "/legendas/download/" ++ sub_id

/-! ### `PipocasSubtitle` -/

/-- A single subtitle entry from pipocas.tv, as built by the
`PipocasSubtitle` constructor. -/
structure PipocasSubtitle where
  language : Language
  video : Video
  sub_id : String
  release : String
  hits : Nat
  uploader : String
  user_score : ℤ
  page_link : String
deriving DecidableEq, Repr

/-- The `PipocasSubtitle.__init__` constructor, including its
`or`-defaulting of release, uploader and score. -/
def mkPipocasSubtitle (language : Language) (video : Video) (sub_id : String)
    (release : Option String) (hits : Nat) (uploader : Option String)
    (stars : ℤ) : PipocasSubtitle :=
  { language := language
    video := video
    sub_id := sub_id
    release := pyOrStr release ""
    hits := hits
    uploader := pyOrStr uploader "pipocas-bot"
    user_score := if stars = 0 then 0 else stars
    page_link := download_url sub_id }

/-- `PipocasSubtitle.get_matches`.  The substring heuristics of the source
are translated directly; the `guessit`/`guess_matches` refinement (external
libraries) is supplied as `guessed`, with `none` standing for the case in
which `guessit` raised and the refinement was skipped. -/
def get_matches (video : Video) (release : String)
    (guessed : Option (Finset String)) : Finset String :=
  let base : Finset String :=
    match video with
    | .episode series season episodeNum _ _ =>
        (if series ≠ "" ∧ contains_sub (pyLower series) (pyLower release)
          then {"series"} else ∅)
        ∪ (if optTruthyNat season ∧
              contains_sub (pyLower ("s" ++ pad2 (season.getD 0))) (pyLower release)
          then {"season"} else ∅)
        ∪ (if optTruthyNat episodeNum ∧
              contains_sub (pyLower ("e" ++ pad2 (episodeNum.getD 0))) (pyLower release)
          then {"episode"} else ∅)
    | .movie title _ _ =>
        if title ≠ "" ∧ contains_sub (pyLower title) (pyLower release)
          then {"title"} else ∅
  let withYear :=
    base ∪
      (if optTruthyNat video.year ∧
          contains_sub (toString (video.year.getD 0)) release
        then {"year"} else ∅)
  withYear ∪ guessed.getD ∅

/-! ### CSRF token extraction (`TOKEN_RE`)

`TOKEN_RE = re.compile(r'<meta name="csrf-token" content="(.+?)">', re.IGNORECASE)`
and `TOKEN_RE.search(text)`: leftmost match of the case-insensitive literal
followed by a lazy non-empty capture of non-newline characters up to the
closing quote-bracket. -/

/-- The literal part of `TOKEN_RE`, up to the capture group. -/
def tokenLit : List Char := "<meta name=\"csrf-token\" content=\"".data

/-- Case-insensitive literal prefix test (`re.IGNORECASE`). -/
def ciPrefix (pat s : List Char) : Bool :=
  (s.take pat.length).map Char.toLower = pat.map Char.toLower

/-- The lazy capture `(.+?)">`: consume the shortest non-empty run of
non-newline characters that is followed by the two closing characters. -/
def lazyCapture (acc : List Char) : List Char → Option (List Char)
  | [] => none
  | c :: rs =>
    if acc ≠ [] ∧ ['\"', '>'].isPrefixOf (c :: rs) then some acc
    else if c = '\n' then none
    else lazyCapture (acc ++ [c]) rs

/-- `TOKEN_RE.search(text)` returning `group(1)`: try every start position
from the left; at each, match the literal and then the lazy capture. -/
def tokenSearchAux : List Char → Option (List Char)
  | [] => none
  | c :: rest =>
    if ciPrefix tokenLit (c :: rest) then
      match lazyCapture [] ((c :: rest).drop tokenLit.length) with
      | some cap => some cap
      | none => tokenSearchAux rest
    else tokenSearchAux rest

/-- `TOKEN_RE.search(res.text)` with `group(1)`, on strings. -/
def findToken (text : String) : Option String :=
  (tokenSearchAux text.data).map (fun cs => ⟨cs⟩)

/-! ### Errors, effects, HTTP responses -/

/-- The exceptions pipocas.py raises itself, plus the `HTTPError` that
`raise_for_status` raises on a non-2xx response. -/
inductive PipError
  | configurationError (msg : String)
  | serviceUnavailable (msg : String)
  | authenticationError (msg : String)
  | httpError
deriving DecidableEq, Repr

/-- Externally visible effects of lifecycle methods. -/
inductive Effect
  | sessionCreate
  | sessionClose
  | httpGet (url : String)
  | httpPost (url : String)
deriving DecidableEq, Repr

/-- An HTTP response: `ok = false` makes `raise_for_status` raise. -/
structure HttpResponse where
  ok : Bool
  text : String
deriving DecidableEq, Repr

instance {ε α : Type} [DecidableEq ε] [DecidableEq α] :
    DecidableEq (Except ε α) := fun a b =>
  match a, b with
  | .error e, .error f =>
      if h : e = f then .isTrue (by rw [h]) else .isFalse (by simp [h])
  | .error _, .ok _ => .isFalse (by simp)
  | .ok _, .error _ => .isFalse (by simp)
  | .ok x, .ok y =>
      if h : x = y then .isTrue (by rw [h]) else .isFalse (by simp [h])

/-! ### Login (`_login`) -/

/-- Oracle for the two HTTP exchanges of `_login`: the login page, and the
response to posting a `(username, password, token)` form. -/
structure LoginWorld where
  loginPage : HttpResponse
  postResp : String → String → String → HttpResponse

/-- `PipocasProvider._login`: GET the login page, extract the CSRF token,
POST the credentials with the token, and classify the outcome.  Returns
the HTTP effects performed together with the exception raised, if any. -/
def login (w : LoginWorld) (username password : String) :
    List Effect × Option PipError :=
  let res := w.loginPage
  if !res.ok then ([.httpGet LOGIN_URL], some .httpError)
  else
    match findToken res.text with
    | none =>
        ([.httpGet LOGIN_URL],
         some (.serviceUnavailable
           "Pipocas.tv :: unable to find CSRF token on login page"))
    | some token =>
        let res2 := w.postResp username password token
        if !res2.ok then
          ([.httpGet LOGIN_URL, .httpPost LOGIN_URL], some .httpError)
        else if contains_sub "Cria uma conta" res2.text then
          ([.httpGet LOGIN_URL, .httpPost LOGIN_URL],
           some (.authenticationError
             "Pipocas.tv :: login failed, check credentials"))
        else
          ([.httpGet LOGIN_URL, .httpPost LOGIN_URL], none)

/-! ### Provider lifecycle (`__init__`, `initialize`, `terminate`) -/

/-- The session attribute: `None` before `initialize`, a live session
after it, a closed session after `terminate`. -/
inductive SessionState
  | noSession
  | active
  | closed
deriving DecidableEq, Repr

/-- The provider's instance attributes. -/
structure ProviderState where
  username : Option String
  password : Option String
  session : SessionState
deriving DecidableEq, Repr

/-- `PipocasProvider.__init__(username, password)`. -/
def providerInit (username password : Option String) :
    Except PipError ProviderState :=
  if (optTruthyStr username || optTruthyStr password) &&
      !(optTruthyStr username && optTruthyStr password) then
    .error (.configurationError
      "Pipocas.tv :: username and password must both be set")
  else
    .ok { username := username, password := password, session := .noSession }

/-- `PipocasProvider.initialize`: check credentials, create the session,
log in.  Returns the provider state after the call (also when an exception
escapes), the effects performed, and the exception, if any. -/
def initProvider (w : LoginWorld) (ps : ProviderState) :
    ProviderState × List Effect × Option PipError :=
  if !optTruthyStr ps.username || !optTruthyStr ps.password then
    (ps, [],
     some (.configurationError "Pipocas.tv :: username/password not configured"))
  else
    let ps2 := { ps with session := .active }
    let r := login w (ps.username.getD "") (ps.password.getD "")
    (ps2, .sessionCreate :: r.1, r.2)

/-- `PipocasProvider.terminate`: close the session if there is one. -/
def terminate (ps : ProviderState) : ProviderState × List Effect :=
  match ps.session with
  | .noSession => (ps, [])
  | _ => ({ ps with session := .closed }, [.sessionClose])

/-! ### Search (`_build_search_query`, `_parse_details_page`,
`_search_language`, `list_subtitles`) -/

/-- `PipocasProvider._build_search_query`. -/
def build_search_query (video : Video) : String :=
  match video with
  | .episode series season episodeNum _ name =>
      if series ≠ "" ∧ optTruthyNat season ∧ optTruthyNat episodeNum then
        series ++ " S" ++ pad2 (season.getD 0) ++ "E" ++ pad2 (episodeNum.getD 0)
      else if series ≠ "" then series
      else if name ≠ "" then splitextStem (basename name)
      else ""
  | .movie title _ name =>
      if title ≠ "" then title
      else if name ≠ "" then splitextStem (basename name)
      else ""

/-- What BeautifulSoup extracts from a details page (`/legendas/info/...`):
the parsed field values that `_parse_details_page` reads out of the soup.
`subId` is the first `/legendas/download/` link target, `none` when there
is no such link; `hits` and `ratingVal` already absorb the `int(...)`
parsing with its `ValueError → 0` fallback. -/
structure DetailPageData where
  ok : Bool
  release : String
  subId : Option String
  hits : Nat
  uploader : Option String
  ratingVal : Nat

/-- What BeautifulSoup extracts from a search-results page: the response
itself plus the `href`s of the anchors with class
`text-dark no-decoration`. -/
structure SearchPageData where
  ok : Bool
  text : String
  anchors : List String

/-- Oracle for the HTTP exchanges and HTML parsing of a search:
the search-results page per `(site_lang, query)` and the details page
per URL. -/
structure SearchWorld where
  searchPage : String → String → SearchPageData
  detailPage : String → DetailPageData

/-- HTTP requests issued during a search. -/
inductive Request
  | search (siteLang query : String)
  | details (url : String)
deriving DecidableEq, Repr

/-- `PipocasProvider._parse_details_page`: one GET, then build a
`PipocasSubtitle` from the parsed fields (or `None` when no download link
was found). -/
def parse_details_page (w : SearchWorld) (video : Video) (url : String)
    (language : Language) :
    List Request × Except PipError (Option PipocasSubtitle) :=
  let d := w.detailPage url
  ([.details url],
   if !d.ok then .error .httpError
   else
     match d.subId with
     | none => .ok none
     | some sid =>
         .ok (some (mkPipocasSubtitle language video sid (some d.release)
           d.hits d.uploader (score_stars d.ratingVal d.hits))))

/-- Normalisation of a details link: absolute URLs kept, others prefixed
with the site (`SITE.rstrip("/") + href`). -/
def normalizeHref (href : String) : String :=
  if "http".data.isPrefixOf href.data then href
  else ⟨(SITE.data.reverse.dropWhile (fun c => c = '/')).reverse⟩ ++ href

/-- The details-page loop of `_search_language`: visit each link in order,
collecting subtitles; an exception aborts the whole search. -/
def detailsLoop (w : SearchWorld) (video : Video) (language : Language) :
    List String → List Request × Except PipError (List PipocasSubtitle)
  | [] => ([], .ok [])
  | url :: rest =>
    let r := parse_details_page w video url language
    match r.2 with
    | .error e => (r.1, .error e)
    | .ok none =>
        let rec2 := detailsLoop w video language rest
        (r.1 ++ rec2.1, rec2.2)
    | .ok (some s) =>
        let rec2 := detailsLoop w video language rest
        (r.1 ++ rec2.1, rec2.2.map (fun l => s :: l))

/-- The details links found on a search page: anchors whose `href`
contains `/legendas/info/`, normalised to absolute URLs. -/
def searchLinks (page : SearchPageData) : List String :=
  (page.anchors.filter (fun h => contains_sub "/legendas/info/" h)).map normalizeHref

/-- `PipocasProvider._search_language`: resolve the site language, build
the query, GET the results page, then parse every details link. -/
def search_language (w : SearchWorld) (video : Video) (language : Language) :
    List Request × Except PipError (List PipocasSubtitle) :=
  match get_pipocas_language language with
  | none => ([], .ok [])
  | some siteLang =>
    let query := build_search_query video
    if query = "" then ([], .ok [])
    else
      let page := w.searchPage siteLang query
      if !page.ok then ([.search siteLang query], .error .httpError)
      else if contains_sub "Cria uma conta" page.text then
        ([.search siteLang query],
         .error (.authenticationError "Pipocas.tv :: not authenticated during search"))
      else
        let rest := detailsLoop w video language (searchLinks page)
        (.search siteLang query :: rest.1, rest.2)

/-- The language loop of `list_subtitles`: the re-raised exception classes
(`HTTPError`, `RequestException`, `AuthenticationError`,
`ServiceUnavailable`) cover every exception the model can produce, so an
error aborts the loop. -/
def langLoop (w : SearchWorld) (video : Video) :
    List Language → List Request × Except PipError (List PipocasSubtitle)
  | [] => ([], .ok [])
  | lang :: rest =>
    let r := search_language w video lang
    match r.2 with
    | .error e => (r.1, .error e)
    | .ok subs =>
        let rec2 := langLoop w video rest
        (r.1 ++ rec2.1, rec2.2.map (fun l => subs ++ l))

/-- The descending sort key test of `list_subtitles`:
`all_subs.sort(key=lambda s: (s.user_score, s.hits), reverse=True)` places
`a` before `b` exactly when `(a.user_score, a.hits) ≥ (b.user_score, b.hits)`
lexicographically. -/
def subKeyGE (a b : PipocasSubtitle) : Bool :=
  decide (b.user_score < a.user_score) ||
    (decide (a.user_score = b.user_score) && decide (b.hits ≤ a.hits))

/-- `PipocasProvider.list_subtitles`: search every language, then sort by
`(user_score, hits)` descending (a stable sort, as `list.sort` is). -/
def list_subtitles (w : SearchWorld) (video : Video)
    (languages : List Language) :
    List Request × Except PipError (List PipocasSubtitle) :=
  let r := langLoop w video languages
  (r.1, r.2.map (fun subs => subs.mergeSort subKeyGE))

/-! ### Archive extraction (`_extract_best_from_archive`) -/

/-- What the external `guessit`/`guess_matches` pair yields for one archive
entry basename: the guessed season and episode, and the match set
`guess_matches(video, guessed)`.  A `guessit` exception corresponds to an
oracle value with `season = episode = none` and the matches of an empty
guess. -/
structure GuessInfo where
  season : Option Nat
  episodeNum : Option Nat
  matchSet : Finset String

/-- The per-entry score: `sum(scores.get(m, 0) for m in matches)`, with
`scores` the external `get_scores(subtitle.video)` table (total function,
absorbing the `.get(m, 0)` default). -/
def entryScore (guess : String → GuessInfo) (scores : String → ℤ)
    (name : String) : ℤ :=
  ∑ m ∈ (guess (basename name)).matchSet, scores m

/-- The filter of the loop in `_extract_best_from_archive`: hidden files
are skipped, the lowercased name must end with an allowed extension, and
for episodes an entry whose guessed season and episode are both present
must agree with the video. -/
def isCandidate (video : Video) (guess : String → GuessInfo)
    (allowedExts : List String) (name : String) : Bool :=
  !(['.'].isPrefixOf (basename name).data) &&
  allowedExts.any (fun ext => ext.data.isSuffixOf (pyLower name).data) &&
  (if video.isEpisode then
     match (guess (basename name)).season, (guess (basename name)).episodeNum with
     | some s, some e =>
         decide ((some s : Option Nat) = video.season) &&
         decide ((some e : Option Nat) = video.episodeNum)
     | _, _ => true
   else true)

/-- The selection loop: keep the first entry whose score strictly exceeds
the best so far (initially `-1`). -/
def selectLoop (video : Video) (guess : String → GuessInfo)
    (scores : String → ℤ) (allowedExts : List String) :
    List String → Option String × ℤ → Option String × ℤ
  | [], acc => acc
  | name :: rest, acc =>
    if isCandidate video guess allowedExts name then
      let sc := entryScore guess scores name
      if acc.2 < sc then selectLoop video guess scores allowedExts rest (some name, sc)
      else selectLoop video guess scores allowedExts rest acc
    else selectLoop video guess scores allowedExts rest acc

/-- `archive.read(name)`: the bytes of the entry with the given name. -/
def archiveRead (entries : List (String × List Nat)) (name : String) :
    Option (List Nat) :=
  (entries.find? (fun e => e.1 = name)).map (fun e => e.2)

/-- `PipocasProvider._extract_best_from_archive`.  `entries` is the decoded
archive (`namelist()` paired with `read`), `subExts` the external
`SUBTITLE_EXTENSIONS` constant from which `.txt` is removed. -/
def extract_best_from_archive (entries : List (String × List Nat))
    (video : Video) (guess : String → GuessInfo) (scores : String → ℤ)
    (subExts : List String) : Option (List Nat) :=
  let allowedExts := subExts.erase ".txt"
  let best := selectLoop video guess scores allowedExts
    (entries.map (fun e => e.1)) (none, -1)
  match best.1 with
  | none => none
  | some n => if best.2 ≤ 0 then none else archiveRead entries n

/-! ### Download (`download_subtitle`) -/

/-- Magic bytes `b"Rar!"`. -/
def rarMagic : List Nat := [0x52, 0x61, 0x72, 0x21]

/-- Magic bytes `b"PK"`. -/
def pkMagic : List Nat := [0x50, 0x4B]

inductive ArchiveKind
  | rar
  | zip
deriving DecidableEq, Repr

/-- Oracle for a download: the HTTP response (text and raw bytes), the
decoded archives the external `rarfile`/`zipfile` libraries would produce
from those bytes, the `guessit`/`guess_matches`/`get_scores` behaviour for
the video, the external `SUBTITLE_EXTENSIONS` constant, and the external
`fix_line_ending`/`Subtitle.normalize` content transformations. -/
structure DownloadWorld where
  resp : HttpResponse
  content : List Nat
  rarEntries : List (String × List Nat)
  zipEntries : List (String × List Nat)
  guess : String → GuessInfo
  scores : String → ℤ
  subExts : List String
  fixLineEnding : List Nat → List Nat
  normalize : List Nat → List Nat

/-- The outcome of a successful download: the final `subtitle.content`,
tagged with how it was obtained. -/
inductive DlOutcome
  | rawBody (content : List Nat)
  | extracted (kind : ArchiveKind) (content : List Nat)
deriving DecidableEq, Repr

/-- The archive branch of `download_subtitle`: extract the best entry and
fail with `ServiceUnavailable` when there is none (or its bytes are
falsy, i.e. empty). -/
def processArchive (w : DownloadWorld) (video : Video) (kind : ArchiveKind) :
    Except PipError DlOutcome :=
  let entries := match kind with
    | .rar => w.rarEntries
    | .zip => w.zipEntries
  match extract_best_from_archive entries video w.guess w.scores w.subExts with
  | none =>
      .error (.serviceUnavailable "Pipocas.tv :: no suitable subtitle file in archive")
  | some bytes =>
      if bytes = [] then
        .error (.serviceUnavailable "Pipocas.tv :: no suitable subtitle file in archive")
      else .ok (.extracted kind (w.normalize (w.fixLineEnding bytes)))

/-- `PipocasProvider.download_subtitle` (the undecorated method body):
GET the page link, check authentication and non-emptiness, then dispatch
on the magic bytes of `data[:4]`. -/
def download_subtitle (w : DownloadWorld) (sub : PipocasSubtitle) :
    Except PipError DlOutcome :=
  if !w.resp.ok then .error .httpError
  else if contains_sub "Cria uma conta" w.resp.text then
    .error (.authenticationError "Pipocas.tv :: not authenticated during download")
  else if w.content = [] then
    .error (.serviceUnavailable "Pipocas.tv :: empty download response")
  else
    let header := w.content.take 4
    if rarMagic.isPrefixOf header then processArchive w sub.video .rar
    else if pkMagic.isPrefixOf header then processArchive w sub.video .zip
    else .ok (.rawBody (w.normalize (w.fixLineEnding w.content)))

/-! ### State-threading wrappers

`list_subtitles` and `download_subtitle` read `self.session` but never
assign any attribute of the provider (the source methods contain no
assignment to `self`), so their state-passing embeddings return the
provider state unchanged. -/

def list_subtitles_st (ps : ProviderState) (w : SearchWorld) (video : Video)
    (languages : List Language) :
    ProviderState × List Request × Except PipError (List PipocasSubtitle) :=
  (ps, list_subtitles w video languages)

def download_subtitle_st (ps : ProviderState) (w : DownloadWorld)
    (sub : PipocasSubtitle) :
    ProviderState × Except PipError DlOutcome :=
  (ps, download_subtitle w sub)

/-! ### Concrete fixtures used by witnesses -/

/-- A search world whose result pages are empty. -/
def emptySearchWorld : SearchWorld :=
  { searchPage := fun _ _ => { ok := true, text := "", anchors := [] }
    detailPage := fun _ =>
      { ok := true, release := "", subId := none, hits := 0,
        uploader := none, ratingVal := 0 } }

/-- A login world whose login page carries a CSRF token and whose
post-login page does not show the logged-out marker. -/
def tokenLoginWorld : LoginWorld :=
  { loginPage := { ok := true, text := "<meta name=\"csrf-token\" content=\"tok\">" }
    postResp := fun _ _ _ => { ok := true, text := "bem-vindo" } }

/-- A sample subtitle. -/
def sampleSub : PipocasSubtitle :=
  mkPipocasSubtitle ⟨"por", none⟩ (.movie "m" none "") "1" none 0 none 0

/-- A guess oracle that guesses nothing. -/
def emptyGuess : String → GuessInfo :=
  fun _ => { season := none, episodeNum := none, matchSet := ∅ }

/-- A download world whose body is plain (non-archive) bytes and whose
content transformations are the identity. -/
def rawDownloadWorld : DownloadWorld :=
  { resp := { ok := true, text := "" }
    content := [1, 2, 3]
    rarEntries := []
    zipEntries := []
    guess := emptyGuess
    scores := fun _ => 0
    subExts := [".srt", ".sub", ".smi", ".txt", ".ssa", ".ass", ".mpl", ".vtt"]
    fixLineEnding := fun l => l
    normalize := fun l => l }

/-! ## Claims -/

/-- **C10.** For every parsed details page, `score_stars` equals
`round((rating_val + hit_factor) / 2)` where `hit_factor` is
`min(hits / 100, 5)` when `rating_val` is non-zero and `0` when
`rating_val` is `0`; in particular, whenever the parsed rating is `0` the
resulting `score_stars` is `0` regardless of the hit count. -/
theorem C10_score_stars_formula :
    (∀ rating_val hits : Nat,
      score_stars rating_val hits =
        roundHalfEven (((rating_val : ℚ) +
          (if rating_val = 0 then 0 else min ((hits : ℚ) / 100) 5)) / 2)) ∧
    (∀ hits : Nat, score_stars 0 hits = 0) := by
  constructor
  · intro r h
    rfl
  · intro h
    norm_num [score_stars, hit_factor, roundHalfEven]

/-- **C9.** `get_pipocas_language` returns the mapping of
`(alpha3, country)` when present, otherwise falls back to the mapping of
`(alpha3, None)`, otherwise `None`; and when it returns `None`,
`_search_language` returns the empty list without issuing any HTTP
request. -/
theorem C9_language_fallback :
    (∀ (l : Language) (v : String),
      PIPOCAS_LANGUAGE_MAP.lookup (l.alpha3, l.country) = some v →
      get_pipocas_language l = some v) ∧
    (∀ l : Language,
      PIPOCAS_LANGUAGE_MAP.lookup (l.alpha3, l.country) = none →
      get_pipocas_language l = PIPOCAS_LANGUAGE_MAP.lookup (l.alpha3, none)) ∧
    (∀ (l : Language) (w : SearchWorld) (video : Video),
      get_pipocas_language l = none →
      search_language w video l = ([], .ok [])) := by
  refine ⟨?_, ?_, ?_⟩
  · intro l v h
    simp [get_pipocas_language, h]
  · intro l h
    simp [get_pipocas_language, h]
  · intro l w video h
    simp [search_language, h]

theorem C9_witness :
    get_pipocas_language ⟨"por", some "BR"⟩ = some "brasileiro" ∧
    get_pipocas_language ⟨"por", some "XX"⟩ =
      PIPOCAS_LANGUAGE_MAP.lookup ("por", none) ∧
    search_language emptySearchWorld (.movie "m" none "") ⟨"fra", none⟩ =
      ([], .ok []) :=
  ⟨C9_language_fallback.1 ⟨"por", some "BR"⟩ "brasileiro" (by decide),
   C9_language_fallback.2.1 ⟨"por", some "XX"⟩ (by decide),
   C9_language_fallback.2.2 ⟨"fra", none⟩ emptySearchWorld (.movie "m" none "")
     (by decide)⟩

/-- **C5.** The provider cannot exist or run unauthenticated: the
constructor raises `ConfigurationError` for every input where exactly one
of username and password is set (truthy), and `initialize` raises
`ConfigurationError` — with no session created and no request sent — for
every provider where username or password is missing. -/
theorem C5_credentials_required :
    (∀ u p : Option String, optTruthyStr u ≠ optTruthyStr p →
      providerInit u p = .error (.configurationError
        "Pipocas.tv :: username and password must both be set")) ∧
    (∀ (w : LoginWorld) (ps : ProviderState),
      optTruthyStr ps.username = false ∨ optTruthyStr ps.password = false →
      initProvider w ps = (ps, [], some (.configurationError
        "Pipocas.tv :: username/password not configured"))) := by
  constructor
  · intro u p h
    cases hu : optTruthyStr u <;> cases hp : optTruthyStr p <;>
      simp [hu, hp] at h ⊢ <;> simp [providerInit, hu, hp]
  · intro w ps h
    rcases h with h | h <;> simp [initProvider, h]

theorem C5_witness :
    providerInit (some "user") none = .error (.configurationError
      "Pipocas.tv :: username and password must both be set") ∧
    initProvider tokenLoginWorld ⟨none, some "pw", .noSession⟩ =
      (⟨none, some "pw", .noSession⟩, [], some (.configurationError
        "Pipocas.tv :: username/password not configured")) :=
  ⟨C5_credentials_required.1 (some "user") none (by decide),
   C5_credentials_required.2 tokenLoginWorld ⟨none, some "pw", .noSession⟩
     (Or.inl (by decide))⟩

/-- **C7.** After every operation, the provider's own state is limited to
the credentials fixed at construction and the session: `list_subtitles`
and `download_subtitle` leave the provider state unchanged, `initialize`
and `terminate` keep the credentials and only move the session
(`initialize` to active when the credentials are present, `terminate` to
closed when a session exists). -/
theorem C7_state_machine :
    (∀ (ps : ProviderState) (w : SearchWorld) (video : Video)
        (langs : List Language),
      (list_subtitles_st ps w video langs).1 = ps) ∧
    (∀ (ps : ProviderState) (w : DownloadWorld) (sub : PipocasSubtitle),
      (download_subtitle_st ps w sub).1 = ps) ∧
    (∀ (w : LoginWorld) (ps : ProviderState),
      (initProvider w ps).1.username = ps.username ∧
      (initProvider w ps).1.password = ps.password) ∧
    (∀ ps : ProviderState,
      (terminate ps).1.username = ps.username ∧
      (terminate ps).1.password = ps.password) ∧
    (∀ (w : LoginWorld) (ps : ProviderState),
      optTruthyStr ps.username = true → optTruthyStr ps.password = true →
      (initProvider w ps).1.session = .active) ∧
    (∀ ps : ProviderState, ps.session ≠ .noSession →
      (terminate ps).1.session = .closed) := by
  refine ⟨fun ps w video langs => rfl, fun ps w sub => rfl, ?_, ?_, ?_, ?_⟩
  · intro w ps
    unfold initProvider
    split <;> simp
  · intro ps
    unfold terminate
    split <;> simp
  · intro w ps hu hp
    simp [initProvider, hu, hp]
  · intro ps h
    unfold terminate
    split
    · exact absurd (by assumption) h
    · simp

theorem C7_witness :
    (initProvider tokenLoginWorld ⟨some "u", some "p", .noSession⟩).1.session =
      .active ∧
    (terminate ⟨some "u", some "p", .active⟩).1.session = .closed :=
  ⟨C7_state_machine.2.2.2.2.1 tokenLoginWorld ⟨some "u", some "p", .noSession⟩
     (by decide) (by decide),
   C7_state_machine.2.2.2.2.2 ⟨some "u", some "p", .active⟩ (by decide)⟩

/-- **C3.** `_login` performs exactly the steps GET login page, extract
CSRF token, POST username/password/token; given HTTP-successful
responses, it raises `ServiceUnavailable` if and only if no CSRF token is
found in the login page, raises `AuthenticationError` if and only if the
post-login response text contains `"Cria uma conta"`, and otherwise
completes without error. -/
theorem C3_login_steps :
    ∀ (w : LoginWorld) (username password : String),
      w.loginPage.ok = true →
      (∀ t, (w.postResp username password t).ok = true) →
      match findToken w.loginPage.text with
      | none =>
          login w username password =
            ([.httpGet LOGIN_URL],
             some (.serviceUnavailable
               "Pipocas.tv :: unable to find CSRF token on login page"))
      | some t =>
          login w username password =
            ([.httpGet LOGIN_URL, .httpPost LOGIN_URL],
             if contains_sub "Cria uma conta" (w.postResp username password t).text
             then some (.authenticationError
               "Pipocas.tv :: login failed, check credentials")
             else none) := by
  intro w username password hok hpost
  cases htok : findToken w.loginPage.text with
  | none => simp [login, hok, htok]
  | some t =>
      simp only [login, hok, htok, hpost t, Bool.not_true, Bool.false_eq_true,
        if_false]
      split <;> rfl

theorem C3_witness :
    (match findToken tokenLoginWorld.loginPage.text with
     | none =>
         login tokenLoginWorld "u" "p" =
           ([.httpGet LOGIN_URL],
            some (.serviceUnavailable
              "Pipocas.tv :: unable to find CSRF token on login page"))
     | some t =>
         login tokenLoginWorld "u" "p" =
           ([.httpGet LOGIN_URL, .httpPost LOGIN_URL],
            if contains_sub "Cria uma conta" (tokenLoginWorld.postResp "u" "p" t).text
            then some (.authenticationError
              "Pipocas.tv :: login failed, check credentials")
            else none)) :=
  C3_login_steps tokenLoginWorld "u" "p" rfl (fun _ => rfl)

/-- **C1.** For every download whose response is HTTP-successful, not an
authentication failure and has a non-empty body, `download_subtitle`
decides the container by magic bytes on `data[:4]`: `b"Rar!"` opens the
body as a RAR archive, else `b"PK"` opens it as a ZIP archive, and
otherwise the raw body itself (after line-ending fixing and
normalization) becomes the subtitle content and the subtitle is returned
without any archive extraction. -/
theorem C1_magic_byte_dispatch :
    ∀ (w : DownloadWorld) (sub : PipocasSubtitle),
      w.resp.ok = true →
      contains_sub "Cria uma conta" w.resp.text = false →
      w.content ≠ [] →
      (rarMagic.isPrefixOf (w.content.take 4) = true →
        download_subtitle w sub = processArchive w sub.video .rar) ∧
      (rarMagic.isPrefixOf (w.content.take 4) = false →
        pkMagic.isPrefixOf (w.content.take 4) = true →
        download_subtitle w sub = processArchive w sub.video .zip) ∧
      (rarMagic.isPrefixOf (w.content.take 4) = false →
        pkMagic.isPrefixOf (w.content.take 4) = false →
        download_subtitle w sub =
          .ok (.rawBody (w.normalize (w.fixLineEnding w.content)))) := by
  intro w sub hok hauth hne
  refine ⟨?_, ?_, ?_⟩
  · intro hrar
    simp [download_subtitle, hok, hauth, hne, hrar]
  · intro hrar hpk
    simp [download_subtitle, hok, hauth, hne, hrar, hpk]
  · intro hrar hpk
    simp [download_subtitle, hok, hauth, hne, hrar, hpk]

theorem C1_witness :
    download_subtitle rawDownloadWorld sampleSub = .ok (.rawBody [1, 2, 3]) :=
  (C1_magic_byte_dispatch rawDownloadWorld sampleSub rfl (by decide)
      (by decide)).2.2 (by decide) (by decide)

/-- **C6 (amended).** `get_matches` computes the match set by substring
heuristics on the release string: for an Episode it adds `"series"` when
the series name is non-empty and its lowercase occurs in the lowercased
release, `"season"` when the season is non-zero and the zero-padded
`sNN` tag occurs, and `"episode"` when the episode is non-zero and the
zero-padded `eNN` tag occurs; for a non-Episode it adds `"title"` when
the title is non-empty and its lowercase occurs; and for any video it
adds `"year"` when the year is non-zero and its decimal form occurs in
the release.  (The original claim omitted the non-empty/non-zero
truthiness conditions; see the counterexample.) -/
theorem C6_substring_heuristics :
    (∀ (series : String) (season episodeNum yr : Option Nat)
        (nm release : String) (guessed : Option (Finset String)),
      (series ≠ "" → contains_sub (pyLower series) (pyLower release) = true →
        "series" ∈ get_matches (.episode series season episodeNum yr nm)
          release guessed) ∧
      (∀ n, season = some n → n ≠ 0 →
        contains_sub (pyLower ("s" ++ pad2 n)) (pyLower release) = true →
        "season" ∈ get_matches (.episode series season episodeNum yr nm)
          release guessed) ∧
      (∀ n, episodeNum = some n → n ≠ 0 →
        contains_sub (pyLower ("e" ++ pad2 n)) (pyLower release) = true →
        "episode" ∈ get_matches (.episode series season episodeNum yr nm)
          release guessed)) ∧
    (∀ (title : String) (yr : Option Nat) (nm release : String)
        (guessed : Option (Finset String)),
      title ≠ "" → contains_sub (pyLower title) (pyLower release) = true →
      "title" ∈ get_matches (.movie title yr nm) release guessed) ∧
    (∀ (video : Video) (release : String) (guessed : Option (Finset String))
        (n : Nat),
      video.year = some n → n ≠ 0 → contains_sub (toString n) release = true →
      "year" ∈ get_matches video release guessed) := by
  refine ⟨?_, ?_, ?_⟩
  · intro series season episodeNum yr nm release guessed
    refine ⟨?_, ?_, ?_⟩
    · intro h1 h2
      simp [get_matches, h1, h2]
    · intro n hn hn0 hocc
      subst hn
      simp [get_matches, optTruthyNat, hn0, hocc]
    · intro n hn hn0 hocc
      subst hn
      simp [get_matches, optTruthyNat, hn0, hocc]
  · intro title yr nm release guessed h1 h2
    simp [get_matches, h1, h2]
  · intro video release guessed n hy hn0 hocc
    cases video <;> simp_all [get_matches, Video.year, optTruthyNat]

theorem C6_witness :
    "series" ∈ get_matches (.episode "show" (some 2) (some 3) (some 2020) "")
      "Show.S02E03.2020.x264" none ∧
    "season" ∈ get_matches (.episode "show" (some 2) (some 3) (some 2020) "")
      "Show.S02E03.2020.x264" none ∧
    "episode" ∈ get_matches (.episode "show" (some 2) (some 3) (some 2020) "")
      "Show.S02E03.2020.x264" none ∧
    "title" ∈ get_matches (.movie "heat" (some 1995) "") "Heat.1995.BluRay" none ∧
    "year" ∈ get_matches (.movie "heat" (some 1995) "") "Heat.1995.BluRay" none :=
  ⟨((C6_substring_heuristics.1 "show" (some 2) (some 3) (some 2020) ""
      "Show.S02E03.2020.x264" none).1) (by decide) (by decide),
   ((C6_substring_heuristics.1 "show" (some 2) (some 3) (some 2020) ""
      "Show.S02E03.2020.x264" none).2.1) 2 rfl (by decide) (by decide),
   ((C6_substring_heuristics.1 "show" (some 2) (some 3) (some 2020) ""
      "Show.S02E03.2020.x264" none).2.2) 3 rfl (by decide) (by decide),
   (C6_substring_heuristics.2.1 "heat" (some 1995) "" "Heat.1995.BluRay" none)
     (by decide) (by decide),
   (C6_substring_heuristics.2.2 (.movie "heat" (some 1995) "") "Heat.1995.BluRay"
     none 1995) rfl (by decide) (by decide)⟩

/-- The descending key comparison is transitive. -/
theorem subKeyGE_trans (a b c : PipocasSubtitle) :
    subKeyGE a b → subKeyGE b c → subKeyGE a c := by
  simp only [subKeyGE, Bool.or_eq_true, Bool.and_eq_true, decide_eq_true_eq]
  omega

/-- The descending key comparison is total. -/
theorem subKeyGE_total (a b : PipocasSubtitle) :
    subKeyGE a b || subKeyGE b a := by
  simp only [subKeyGE, Bool.or_eq_true, Bool.and_eq_true, decide_eq_true_eq]
  omega

/-- **C8.** For every video and languages, the list returned by
`list_subtitles` is sorted in non-increasing lexicographic order of the
pair `(user_score, hits)`, regardless of the order in which languages
were searched or results were parsed. -/
theorem C8_output_sorted :
    ∀ (w : SearchWorld) (video : Video) (langs : List Language)
      (reqs : List Request) (subs : List PipocasSubtitle),
      list_subtitles w video langs = (reqs, .ok subs) →
      subs.Pairwise (fun a b => b.user_score < a.user_score ∨
        (a.user_score = b.user_score ∧ b.hits ≤ a.hits)) := by
  intro w video langs reqs subs h
  have h2 : (langLoop w video langs).2.map
      (fun subs => subs.mergeSort subKeyGE) = .ok subs := by
    simpa [list_subtitles] using congrArg Prod.snd h
  cases hr : (langLoop w video langs).2 with
  | error e => rw [hr] at h2; simp [Except.map] at h2
  | ok l =>
      rw [hr] at h2
      simp only [Except.map, Except.ok.injEq] at h2
      subst h2
      have hs := @List.sorted_mergeSort PipocasSubtitle subKeyGE subKeyGE_trans
        subKeyGE_total l
      refine hs.imp ?_
      intro a b hab
      simpa only [subKeyGE, Bool.or_eq_true, Bool.and_eq_true,
        decide_eq_true_eq] using hab

theorem C8_witness :
    List.Pairwise (fun a b : PipocasSubtitle => b.user_score < a.user_score ∨
      (a.user_score = b.user_score ∧ b.hits ≤ a.hits)) [] :=
  C8_output_sorted emptySearchWorld (.movie "m" none "") [⟨"por", none⟩]
    [.search "portugues" "m"] [] (by
      have h : langLoop emptySearchWorld (.movie "m" none "") [⟨"por", none⟩] =
          ([.search "portugues" "m"], .ok []) := by decide
      simp [list_subtitles, h, Except.map])

/-- The claimed request trace of one language: nothing for an unsupported
language or an empty query, otherwise one search request followed by one
details request per result link found on the search page.  (Stated from
the claim, for comparison with the code's trace.) -/
def perLangRequests (w : SearchWorld) (video : Video) (lang : Language) :
    List Request :=
  match get_pipocas_language lang with
  | none => []
  | some siteLang =>
    let query := build_search_query video
    if query = "" then []
    else .search siteLang query ::
      (searchLinks (w.searchPage siteLang query)).map (fun u => .details u)

/-- On a successful run, the details loop issues exactly one request per
link, in order. -/
theorem detailsLoop_ok_requests (w : SearchWorld) (video : Video)
    (language : Language) :
    ∀ (urls : List String) (reqs : List Request)
      (subs : List PipocasSubtitle),
      detailsLoop w video language urls = (reqs, .ok subs) →
      reqs = urls.map (fun u => .details u) := by
  intro urls
  induction urls with
  | nil =>
      intro reqs subs h
      simp only [detailsLoop, Prod.mk.injEq] at h
      simp [← h.1]
  | cons url rest ih =>
      intro reqs subs h
      simp only [detailsLoop] at h
      cases hq : (parse_details_page w video url language).2 with
      | error e => rw [hq] at h; simp at h
      | ok o =>
          rw [hq] at h
          have hreq1 : (parse_details_page w video url language).1 =
              [.details url] := rfl
          cases o with
          | none =>
              rw [hreq1] at h
              obtain ⟨h1, h2⟩ := Prod.mk.injEq .. ▸ h
              have := ih (detailsLoop w video language rest).1 subs
                (by rw [← h2])
              simp [← h1, this]
          | some s =>
              rw [hreq1] at h
              obtain ⟨h1, h2⟩ := Prod.mk.injEq .. ▸ h
              cases hrec : (detailsLoop w video language rest).2 with
              | error e => rw [hrec] at h2; simp [Except.map] at h2
              | ok l =>
                  rw [hrec] at h2
                  have := ih (detailsLoop w video language rest).1 l
                    (by rw [← hrec])
                  simp [← h1, this]

/-- On a successful run, `_search_language` issues exactly the claimed
per-language trace. -/
theorem search_language_ok_requests (w : SearchWorld) (video : Video)
    (lang : Language) :
    ∀ (reqs : List Request) (subs : List PipocasSubtitle),
      search_language w video lang = (reqs, .ok subs) →
      reqs = perLangRequests w video lang := by
  intro reqs subs h
  unfold search_language at h
  unfold perLangRequests
  cases hl : get_pipocas_language lang with
  | none => rw [hl] at h; simp_all
  | some siteLang =>
      rw [hl] at h
      simp only at h ⊢
      by_cases hq : build_search_query video = ""
      · rw [if_pos hq] at h
        rw [if_pos hq]
        simp_all
      · rw [if_neg hq] at h
        rw [if_neg hq]
        cases hok : (w.searchPage siteLang (build_search_query video)).ok with
        | false => simp [hok] at h
        | true =>
            simp only [hok, Bool.not_true, Bool.false_eq_true, if_false] at h
            cases hm : contains_sub "Cria uma conta"
                (w.searchPage siteLang (build_search_query video)).text with
            | true => rw [hm] at h; simp at h
            | false =>
                rw [hm] at h
                simp only [Bool.false_eq_true, if_false, Prod.mk.injEq] at h
                cases hdl : (detailsLoop w video lang
                    (searchLinks (w.searchPage siteLang
                      (build_search_query video)))).2 with
                | error e => rw [hdl] at h; simp at h
                | ok l =>
                    have hreqs := detailsLoop_ok_requests w video lang
                      (searchLinks (w.searchPage siteLang
                        (build_search_query video)))
                      (detailsLoop w video lang (searchLinks (w.searchPage
                        siteLang (build_search_query video)))).1 l (by rw [← hdl])
                    rw [← h.1, hreqs]

/-- **C4.** For every video and set of languages, `list_subtitles` issues
a bounded number of sequential HTTP requests and returns: per supported
language with a non-empty query it issues one search request plus one
detail-page request per result link found, and no other requests. -/
theorem C4_request_trace :
    ∀ (w : SearchWorld) (video : Video) (langs : List Language)
      (reqs : List Request) (subs : List PipocasSubtitle),
      list_subtitles w video langs = (reqs, .ok subs) →
      reqs = langs.flatMap (perLangRequests w video) ∧
      reqs.length =
        (langs.map (fun l => (perLangRequests w video l).length)).sum := by
  have main : ∀ (w : SearchWorld) (video : Video) (langs : List Language)
      (reqs : List Request) (subs : List PipocasSubtitle),
      langLoop w video langs = (reqs, .ok subs) →
      reqs = langs.flatMap (perLangRequests w video) := by
    intro w video langs
    induction langs with
    | nil =>
        intro reqs subs h
        simp only [langLoop, Prod.mk.injEq] at h
        simp [← h.1]
    | cons lang rest ih =>
        intro reqs subs h
        simp only [langLoop] at h
        cases hq : (search_language w video lang).2 with
        | error e => rw [hq] at h; simp at h
        | ok l =>
            rw [hq] at h
            obtain ⟨h1, h2⟩ := Prod.mk.injEq .. ▸ h
            cases hrec : (langLoop w video rest).2 with
            | error e => rw [hrec] at h2; simp [Except.map] at h2
            | ok l2 =>
                have hfirst := search_language_ok_requests w video lang
                  (search_language w video lang).1 l (by rw [← hq])
                have hrest := ih (langLoop w video rest).1 l2 (by rw [← hrec])
                simp [← h1, hfirst, hrest]
  intro w video langs reqs subs h
  have h1 : (langLoop w video langs).1 = reqs := by
    simpa [list_subtitles] using congrArg Prod.fst h
  have h2 : (langLoop w video langs).2.map
      (fun subs => subs.mergeSort subKeyGE) = .ok subs := by
    simpa [list_subtitles] using congrArg Prod.snd h
  cases hr : (langLoop w video langs).2 with
  | error e => rw [hr] at h2; simp [Except.map] at h2
  | ok l =>
      have := main w video langs (langLoop w video langs).1 l (by rw [← hr])
      rw [h1] at this
      refine ⟨this, ?_⟩
      simp only [this, List.flatMap, List.length_flatten, List.map_map]
      rfl

theorem C4_witness :
    [Request.search "portugues" "m"] =
      [Language.mk "por" none].flatMap
        (perLangRequests emptySearchWorld (.movie "m" none "")) ∧
    [Request.search "portugues" "m"].length =
      ([Language.mk "por" none].map
        (fun l => (perLangRequests emptySearchWorld (.movie "m" none "") l).length)).sum :=
  C4_request_trace emptySearchWorld (.movie "m" none "") [⟨"por", none⟩]
    [.search "portugues" "m"] [] (by
      have h : langLoop emptySearchWorld (.movie "m" none "") [⟨"por", none⟩] =
          ([.search "portugues" "m"], .ok []) := by decide
      simp [list_subtitles, h, Except.map])

/-- Invariant of the selection loop of `_extract_best_from_archive`: the
final best score dominates every candidate score and the starting score,
and either the accumulator is returned unchanged or the result names a
candidate achieving the final score, strictly above the starting score. -/
theorem selectLoop_spec (video : Video) (guess : String → GuessInfo)
    (scores : String → ℤ) (allowedExts : List String) :
    ∀ (names : List String) (bn : Option String) (bs : ℤ),
      (∀ n ∈ names.filter (isCandidate video guess allowedExts),
        entryScore guess scores n ≤
          (selectLoop video guess scores allowedExts names (bn, bs)).2) ∧
      bs ≤ (selectLoop video guess scores allowedExts names (bn, bs)).2 ∧
      (selectLoop video guess scores allowedExts names (bn, bs) = (bn, bs) ∨
        ∃ n ∈ names.filter (isCandidate video guess allowedExts),
          (selectLoop video guess scores allowedExts names (bn, bs)).1 = some n ∧
          (selectLoop video guess scores allowedExts names (bn, bs)).2 =
            entryScore guess scores n ∧
          bs < entryScore guess scores n) := by
  intro names
  induction names with
  | nil =>
      intro bn bs
      exact ⟨fun n hn => by simp at hn, le_refl _, Or.inl rfl⟩
  | cons name rest ih =>
      intro bn bs
      by_cases hc : isCandidate video guess allowedExts name
      · have hf : (name :: rest).filter (isCandidate video guess allowedExts) =
            name :: rest.filter (isCandidate video guess allowedExts) := by
          simp [hc]
        by_cases hlt : bs < entryScore guess scores name
        · have hstep :
              selectLoop video guess scores allowedExts (name :: rest) (bn, bs) =
                selectLoop video guess scores allowedExts rest
                  (some name, entryScore guess scores name) := by
            simp [selectLoop, hc, hlt]
          obtain ⟨ih1, ih2, ih3⟩ := ih (some name) (entryScore guess scores name)
          rw [hstep, hf]
          refine ⟨?_, le_of_lt (lt_of_lt_of_le hlt ih2), ?_⟩
          · intro n hn
            rcases List.mem_cons.mp hn with rfl | hn
            · exact ih2
            · exact ih1 n hn
          · rcases ih3 with heq | ⟨n, hn, e1, e2, e3⟩
            · right
              exact ⟨name, List.mem_cons_self .., by rw [heq], by rw [heq], hlt⟩
            · right
              exact ⟨n, List.mem_cons_of_mem _ hn, e1, e2, lt_trans hlt e3⟩
        · have hstep :
              selectLoop video guess scores allowedExts (name :: rest) (bn, bs) =
                selectLoop video guess scores allowedExts rest (bn, bs) := by
            simp [selectLoop, hc, hlt]
          obtain ⟨ih1, ih2, ih3⟩ := ih bn bs
          rw [hstep, hf]
          refine ⟨?_, ih2, ?_⟩
          · intro n hn
            rcases List.mem_cons.mp hn with rfl | hn
            · exact le_trans (not_lt.mp hlt) ih2
            · exact ih1 n hn
          · rcases ih3 with heq | ⟨n, hn, e1, e2, e3⟩
            · exact Or.inl heq
            · exact Or.inr ⟨n, List.mem_cons_of_mem _ hn, e1, e2, e3⟩
      · have hf : (name :: rest).filter (isCandidate video guess allowedExts) =
            rest.filter (isCandidate video guess allowedExts) := by
          simp [hc]
        have hstep :
            selectLoop video guess scores allowedExts (name :: rest) (bn, bs) =
              selectLoop video guess scores allowedExts rest (bn, bs) := by
          simp [selectLoop, hc]
        obtain ⟨ih1, ih2, ih3⟩ := ih bn bs
        rw [hstep, hf]
        exact ⟨ih1, ih2, ih3⟩

/-- `archive.read` succeeds on any name drawn from `namelist()`. -/
theorem archiveRead_mem (entries : List (String × List Nat)) (n : String)
    (h : n ∈ entries.map (fun e => e.1)) :
    ∃ b, archiveRead entries n = some b := by
  obtain ⟨e, he, rfl⟩ := List.mem_map.mp h
  have hsome : (entries.find? (fun x => decide (x.1 = e.1))).isSome := by
    rw [List.find?_isSome]
    exact ⟨e, he, by simp⟩
  obtain ⟨x, hx⟩ := Option.isSome_iff_exists.mp hsome
  exact ⟨x.2, by simp [archiveRead, hx]⟩

/-- `_extract_best_from_archive`, rewritten as a case split on the result
of the selection loop. -/
theorem extract_eq (entries : List (String × List Nat)) (video : Video)
    (guess : String → GuessInfo) (scores : String → ℤ)
    (subExts : List String) :
    extract_best_from_archive entries video guess scores subExts =
      match selectLoop video guess scores (subExts.erase ".txt")
          (entries.map (fun e => e.1)) (none, -1) with
      | (none, _) => none
      | (some n, bs) => if bs ≤ 0 then none else archiveRead entries n := by
  unfold extract_best_from_archive
  rcases hsel : selectLoop video guess scores (subExts.erase ".txt")
      (entries.map (fun e => e.1)) (none, -1) with ⟨bn, bs⟩
  simp only [hsel]
  cases bn <;> simp

/-- **C2.** `_extract_best_from_archive` selects, among the entries whose
basename does not start with `'.'`, whose name ends with a subtitle
extension other than `'.txt'`, and (when the video is an Episode) whose
guessed season/episode, if both present, equal the video's season and
episode, the entry maximizing the sum of per-match scores; it returns that
entry's bytes, and returns `None` when no candidate exists or the best
score is not strictly positive, in which case `download_subtitle` raises
`ServiceUnavailable`. -/
theorem C2_best_archive_entry :
    (∀ (entries : List (String × List Nat)) (video : Video)
        (guess : String → GuessInfo) (scores : String → ℤ)
        (subExts : List String),
      (extract_best_from_archive entries video guess scores subExts = none ↔
        ∀ n ∈ (entries.map (fun e => e.1)).filter
            (isCandidate video guess (subExts.erase ".txt")),
          entryScore guess scores n ≤ 0) ∧
      (∀ b, extract_best_from_archive entries video guess scores subExts =
          some b →
        ∃ n ∈ (entries.map (fun e => e.1)).filter
            (isCandidate video guess (subExts.erase ".txt")),
          0 < entryScore guess scores n ∧
          (∀ m ∈ (entries.map (fun e => e.1)).filter
              (isCandidate video guess (subExts.erase ".txt")),
            entryScore guess scores m ≤ entryScore guess scores n) ∧
          archiveRead entries n = some b)) ∧
    (∀ (w : DownloadWorld) (sub : PipocasSubtitle),
      w.resp.ok = true →
      contains_sub "Cria uma conta" w.resp.text = false →
      w.content ≠ [] →
      (rarMagic.isPrefixOf (w.content.take 4) = true →
        extract_best_from_archive w.rarEntries sub.video w.guess w.scores
          w.subExts = none →
        download_subtitle w sub = .error (.serviceUnavailable
          "Pipocas.tv :: no suitable subtitle file in archive")) ∧
      (rarMagic.isPrefixOf (w.content.take 4) = false →
        pkMagic.isPrefixOf (w.content.take 4) = true →
        extract_best_from_archive w.zipEntries sub.video w.guess w.scores
          w.subExts = none →
        download_subtitle w sub = .error (.serviceUnavailable
          "Pipocas.tv :: no suitable subtitle file in archive"))) := by
  constructor
  · intro entries video guess scores subExts
    obtain ⟨h1, h2, h3⟩ := selectLoop_spec video guess scores
      (subExts.erase ".txt") (entries.map (fun e => e.1)) none (-1)
    rcases hsel : selectLoop video guess scores (subExts.erase ".txt")
        (entries.map (fun e => e.1)) (none, -1) with ⟨bn, bs⟩
    rw [hsel] at h1 h2 h3
    have hex : extract_best_from_archive entries video guess scores subExts =
        match (bn, bs) with
        | (none, _) => none
        | (some n, bs) => if bs ≤ 0 then none else archiveRead entries n := by
      rw [extract_eq, hsel]
    cases bn with
    | none =>
        have hbs : bs = -1 := by
          rcases h3 with heq | ⟨n, _, e1, _, _⟩
          · exact (Prod.mk.injEq .. ▸ heq).2
          · exact absurd e1 (by simp)
        refine ⟨⟨fun _ n hn => ?_, fun _ => by rw [hex]⟩, fun b hb => ?_⟩
        · have := h1 n hn
          omega
        · rw [hex] at hb
          exact absurd hb (by simp)
    | some n =>
        have hex2 : extract_best_from_archive entries video guess scores
            subExts = if bs ≤ 0 then none else archiveRead entries n := hex
        rcases h3 with heq | ⟨n2, hn2, e1, e2, e3⟩
        · exact absurd (Prod.mk.injEq .. ▸ heq).1 (by simp)
        · have e1b : (some n : Option String) = some n2 := e1
          have hnn : n = n2 := Option.some.inj e1b
          subst hnn
          have e2b : bs = entryScore guess scores n := e2
          have h1b : ∀ m ∈ (entries.map (fun e => e.1)).filter
              (isCandidate video guess (subExts.erase ".txt")),
              entryScore guess scores m ≤ bs := h1
          by_cases hle : bs ≤ 0
          · refine ⟨⟨fun _ m hm => le_trans (h1b m hm) hle,
              fun _ => by rw [hex2]; simp [hle]⟩, fun b hb => ?_⟩
            rw [hex2] at hb
            simp [hle] at hb
          · obtain ⟨b0, hb0⟩ := archiveRead_mem entries n
              (List.mem_of_mem_filter hn2)
            refine ⟨⟨fun hnone => ?_, fun hall => ?_⟩, fun b hb => ?_⟩
            · rw [hex2] at hnone
              simp [hle, hb0] at hnone
            · exact absurd (e2b ▸ hall n hn2) hle
            · rw [hex2, if_neg hle] at hb
              exact ⟨n, hn2, by omega, fun m hm => e2b ▸ h1b m hm, hb⟩
  · intro w sub hok hauth hne
    constructor
    · intro hrar hextract
      simp [download_subtitle, hok, hauth, hne, hrar, processArchive, hextract]
    · intro hrar hpk hextract
      simp [download_subtitle, hok, hauth, hne, hrar, hpk, processArchive,
        hextract]

theorem C2_witness :
    extract_best_from_archive [("a.srt", [1, 2])] (.movie "m" none "")
      emptyGuess (fun _ => 0) [".srt", ".txt"] = none :=
  ((C2_best_archive_entry.1 [("a.srt", [1, 2])] (.movie "m" none "")
      emptyGuess (fun _ => 0) [".srt", ".txt"]).1).mpr (by
    intro n hn
    simp [entryScore, emptyGuess])

/-- **C6 counterexample.** The original claim says `"season"` is added
whenever the zero-padded `sNN` tag occurs in the lowercased release, but
for a season-0 episode (a specials season) the tag `s00` occurs and the
code still does not add `"season"`, because `video.season` (the integer
`0`) is falsy in the `if video.season and ...` guard. -/
theorem C6_counterexample :
    contains_sub "s00" (pyLower "Dexter.S00E05.HDTV") = true ∧
    "season" ∉ get_matches (.episode "dexter" (some 0) (some 5) none "")
      "Dexter.S00E05.HDTV" none := by
  decide

end Pipocas
